import Mathlib

/-!
Shallow embedding of `src/alarm_mutex2.c` (a single-file POSIX-threads alarm
scheduler).  The C linked list `alarm_t*` threaded through `link` pointers is
modelled as a `List alarm_t`; `time_t` and `int` values are modelled as `Int`
(second-granularity timestamps, far from any overflow in the scenarios the
spec describes); the bounded `char message[64]` payload is modelled as the
`String` actually stored by the `%64[^\n]` conversion.  Each definition below
names the source lines it transcribes.
-/

/-- Embedding of `struct alarm_tag` (src lines 24-29): `seconds` is the parsed
delay, `time` the absolute deadline (`time_t`), `message` the stored payload.
The `link` pointer is represented by list structure. -/
structure alarm_t where
  seconds : Int
  time : Int
  message : String
  deriving DecidableEq, Repr

/-- Deadline order on alarms: the comparison `next->time >= alarm->time`
used by the insert loop, as a binary relation for sortedness statements. -/
def alarm_le (x y : alarm_t) : Prop := x.time ≤ y.time

instance : DecidableRel alarm_le := fun x y => inferInstanceAs (Decidable (x.time ≤ y.time))

/-- Embedding of the producer's sorted-insert loop (src `main`, lines 132-151):
walk from the head; on the first entry with `next->time >= alarm->time`, link
the new alarm in before it; if the scan reaches the end (`next == NULL`),
append the new alarm at the tail. -/
def alarm_insert (a : alarm_t) : List alarm_t → List alarm_t
  | [] => [a]
  | next :: rest =>
      if next.time ≥ a.time then a :: next :: rest
      else next :: alarm_insert a rest

/-- Embedding of the consumer's queue access (src `alarm_thread`, lines 46-63),
the operation the spec calls `takeDueOrPeekWait`.  Arguments: the queue, the
current time (`time(NULL)` sampled at line 58), and the value `sleep_time`
held from the previous iteration.  Returns (removed entry, remaining queue,
resulting `sleep_time`).  Transcribed faithfully, including two slips present
in the source: in the empty branch line 54 assigns `1` to the (undeclared)
variable `sleet_time`, so `sleep_time` keeps its stale previous value; in the
non-empty branch line 62 computes `now - alarm->time` (not
`alarm->time - now`). -/
def takeDueOrPeekWait (q : List alarm_t) (now : Int) (prev_sleep : Int) :
    Option alarm_t × List alarm_t × Int :=
  match q with
  | [] => (none, [], prev_sleep)
  | alarm :: rest =>
      (some alarm, rest, if alarm.time ≤ now then 0 else now - alarm.time)

/-- What the consumer does after releasing the lock (src lines 74-77):
sleep for `sleep_time` seconds if positive, otherwise `sched_yield()`. -/
inductive WaitAction where
  | sleepFor (n : Int)
  | yieldSlice
  deriving DecidableEq, Repr

/-- Result of one iteration of the consumer loop body. -/
structure IterResult where
  alarm_list : List alarm_t
  sleep_time : Int
  sleet_time : Int
  action : WaitAction
  fired : Option alarm_t
  deriving DecidableEq, Repr

/-- Embedding of one full iteration of the consumer loop body
(src `alarm_thread`, lines 41-86): take from the queue, then sleep or yield
(lines 74-77), then — if an entry was removed — print and free it
(lines 80-84).  `sleep0`/`sleet0` are the stale values the two variables hold
entering the iteration; the empty branch (line 54) sets only `sleet_time`. -/
def alarm_thread_iter (q : List alarm_t) (now sleep0 sleet0 : Int) : IterResult :=
  match q with
  | [] =>
      { alarm_list := []
        sleep_time := sleep0
        sleet_time := 1
        action := if sleep0 > 0 then .sleepFor sleep0 else .yieldSlice
        fired := none }
  | alarm :: rest =>
      let st : Int := if alarm.time ≤ now then 0 else now - alarm.time
      { alarm_list := rest
        sleep_time := st
        sleet_time := sleet0
        action := if st > 0 then .sleepFor st else .yieldSlice
        fired := some alarm }

/-- The whitespace class of `sscanf` in the C locale (space, tab, newline,
carriage return, vertical tab, form feed). -/
def is_space_c (c : Char) : Bool :=
  c = ' ' || c = '\t' || c = '\n' || c = '\r' || c = '\x0b' || c = '\x0c'

/-- Digit accumulation of the `%d` conversion: consume leading decimal digits,
returning the accumulated value and the unconsumed remainder. -/
def scan_digits : List Char → Nat → Nat × List Char
  | [], acc => (acc, [])
  | c :: cs, acc =>
      if c.isDigit then scan_digits cs (acc * 10 + (c.toNat - 48))
      else (acc, c :: cs)

/-- Unsigned part of `%d`: succeeds only if at least one digit is present. -/
def scan_unsigned (cs : List Char) : Option (Nat × List Char) :=
  match cs with
  | [] => none
  | c :: _ => if c.isDigit then some (scan_digits cs 0) else none

/-- The `%d` conversion after its whitespace skip: an optional sign followed
by at least one digit. -/
def scan_int (cs : List Char) : Option (Int × List Char) :=
  match cs with
  | '-' :: rest => (scan_unsigned rest).map (fun p => (-(p.1 : Int), p.2))
  | '+' :: rest => (scan_unsigned rest).map (fun p => ((p.1 : Int), p.2))
  | _ => (scan_unsigned cs).map (fun p => ((p.1 : Int), p.2))

/-- The `%64[^\n]` conversion: store at most 64 characters drawn from the
class "not newline". -/
def scan_message (cs : List Char) : List Char :=
  (cs.takeWhile (fun c => c != '\n')).take 64

/-- Embedding of `sscanf(line, "%d %64[^\n]", &alarm->seconds, alarm->message)`
(src line 118): `%d` skips leading whitespace and parses a signed integer; the
literal space skips whitespace; `%64[^\n]` stores up to 64 non-newline
characters and requires at least one.  Returns `none` when fewer than two
conversions succeed (the `< 2` test), else the parsed delay and message. -/
def parse_line (line : String) : Option (Int × String) :=
  match scan_int (line.toList.dropWhile is_space_c) with
  | none => none
  | some (n, rest) =>
      let msg := scan_message (rest.dropWhile is_space_c)
      if msg.isEmpty then none else some (n, String.mk msg)

/-- Outcome of one producer loop iteration for one input line. -/
inductive SubmitResult where
  | skipped
  | parseError
  | inserted
  deriving DecidableEq, Repr

/-- Embedding of one iteration of the producer loop for one fetched line
(src `main`, lines 104-154): a line of `strlen <= 1` is skipped
(lines 107-108); a line the `sscanf` rejects frees the allocation and reports
"bad command" (lines 118-122); otherwise the deadline `time(NULL) + seconds`
is computed (line 129) and the alarm is inserted sorted (lines 132-151). -/
def producer_step (q : List alarm_t) (now : Int) (line : String) :
    List alarm_t × SubmitResult :=
  if line.length ≤ 1 then (q, .skipped)
  else
    match parse_line line with
    | none => (q, .parseError)
    | some (secs, msg) =>
        (alarm_insert { seconds := secs, time := now + secs, message := msg } q,
         .inserted)

/-- Whether the producer's insert path (src `main`, lines 125-153) aborts,
as a function of the status codes its two mutex calls return: the lock status
is tested at lines 126-127 (`err_abort` on nonzero); the unlock's return value
at line 153 is discarded, so execution proceeds regardless of it. -/
def producer_sync_aborts (lockStatus _unlockStatus : Int) : Bool :=
  if lockStatus ≠ 0 then true
  else false

/-- Whether the consumer's queue access (src `alarm_thread`, lines 43-45 and
70-72) aborts, as a function of the status codes its two mutex calls return:
both are tested and `err_abort` on nonzero. -/
def consumer_sync_aborts (lockStatus unlockStatus : Int) : Bool :=
  if lockStatus ≠ 0 then true
  else if unlockStatus ≠ 0 then true
  else false

/-- The inserted list is the original with the new alarm added: no entry is
duplicated or dropped. -/
theorem alarm_insert_perm (a : alarm_t) :
    ∀ q : List alarm_t, (alarm_insert a q).Perm (a :: q)
  | [] => List.Perm.refl _
  | next :: rest => by
      unfold alarm_insert
      by_cases h : next.time ≥ a.time
      · rw [if_pos h]
      · rw [if_neg h]
        exact ((alarm_insert_perm a rest).cons next).trans (List.Perm.swap a next rest)

/-- Sorted-insert preserves sortedness by deadline. -/
theorem alarm_insert_sorted (a : alarm_t) :
    ∀ q : List alarm_t, List.Sorted alarm_le q → List.Sorted alarm_le (alarm_insert a q)
  | [], _ => by
      unfold alarm_insert
      exact List.sorted_singleton a
  | next :: rest, h => by
      rw [List.sorted_cons] at h
      obtain ⟨hhead, htail⟩ := h
      unfold alarm_insert
      by_cases hc : next.time ≥ a.time
      · rw [if_pos hc, List.sorted_cons]
        refine ⟨?_, ?_⟩
        · intro b hb
          rcases List.mem_cons.mp hb with rfl | hb
          · exact hc
          · exact le_trans hc (hhead b hb)
        · rw [List.sorted_cons]
          exact ⟨hhead, htail⟩
      · rw [if_neg hc, List.sorted_cons]
        refine ⟨?_, alarm_insert_sorted a rest htail⟩
        intro b hb
        rcases List.mem_cons.mp ((alarm_insert_perm a rest).mem_iff.mp hb) with rfl | hb
        · exact le_of_lt (lt_of_not_ge hc)
        · exact hhead b hb

/-- Positional characterization of the insert loop: the new alarm lands
immediately before the first existing entry whose deadline is not earlier
than (that is, greater than or equal to) the new alarm's deadline. -/
theorem alarm_insert_split (a : alarm_t) :
    ∀ q : List alarm_t,
      alarm_insert a q =
        q.takeWhile (fun x => decide (x.time < a.time)) ++
          a :: q.dropWhile (fun x => decide (x.time < a.time))
  | [] => by
      unfold alarm_insert
      rfl
  | next :: rest => by
      unfold alarm_insert
      by_cases hc : next.time ≥ a.time
      · have hb : decide (next.time < a.time) = false := by
          simp [not_lt.mpr hc]
        rw [if_pos hc, List.takeWhile_cons, List.dropWhile_cons, hb]
        simp
      · have hb : decide (next.time < a.time) = true := by
          simp [lt_of_not_ge hc]
        rw [if_neg hc, List.takeWhile_cons, List.dropWhile_cons, hb]
        simp [alarm_insert_split a rest]

/-- A line consisting only of whitespace fails the `sscanf`: the `%d`
conversion finds no digit. -/
theorem parse_line_whitespace_none (line : String)
    (h : line.toList.all is_space_c = true) : parse_line line = none := by
  have hd : line.toList.dropWhile is_space_c = [] := by
    rw [List.dropWhile_eq_nil_iff]
    intro x hx
    exact List.all_eq_true.mp h x hx
  unfold parse_line
  rw [hd]
  rfl

/-- C1: the claim states the consumer's dequeue step returns the head with
wait duration `max(0, head.deadline - now)`, in particular `deadline - now`
when the deadline is in the future.  Evaluating the embedded source at a head
with deadline 10 and now 5 shows line 62 computes `now - alarm->time = -5`,
not the claimed `10 - 5 = 5` — contradicting the source's own comment
(lines 50-51), which calls for the number of seconds to wait clamped at 0. -/
theorem C1_future_deadline_wait_negated :
    (takeDueOrPeekWait [{ seconds := 5, time := 10, message := "m" }] 5 1).2.2 = -5 ∧
    ¬ ((takeDueOrPeekWait [{ seconds := 5, time := 10, message := "m" }] 5 1).2.2 =
        max 0 (10 - 5)) := by
  decide

/-- C2 counterexample: inserting a new alarm whose deadline equals an existing
entry's deadline places the new entry BEFORE the existing one (the scan stops
at the first entry with `next->time >= alarm->time`), not after it as the
claimed FIFO-stable tie-break would require. -/
theorem C2_equal_deadline_lands_before :
    alarm_insert ⟨0, 10, "new"⟩ [⟨0, 10, "old"⟩] = [⟨0, 10, "new"⟩, ⟨0, 10, "old"⟩] ∧
    alarm_insert ⟨0, 10, "new"⟩ [⟨0, 10, "old"⟩] ≠ [⟨0, 10, "old"⟩, ⟨0, 10, "new"⟩] := by
  decide

/-- C2 (amended): `insertSorted` places the new request immediately before the
first existing entry whose deadline is not earlier than the request's
deadline; consequently a new entry whose deadline equals existing entries'
lands BEFORE those equal-deadline entries (LIFO at ties), not after them. -/
theorem C2_insert_before_first_not_earlier (a : alarm_t) (q : List alarm_t) :
    alarm_insert a q =
      q.takeWhile (fun x => decide (x.time < a.time)) ++
        a :: q.dropWhile (fun x => decide (x.time < a.time)) :=
  alarm_insert_split a q

/-- C3: inserting into a deadline-sorted queue yields a deadline-sorted queue
containing exactly the old entries plus the new one. -/
theorem C3_insert_preserves_sorted_and_content (a : alarm_t) (q : List alarm_t)
    (h : List.Sorted alarm_le q) :
    List.Sorted alarm_le (alarm_insert a q) ∧ (alarm_insert a q).Perm (a :: q) :=
  ⟨alarm_insert_sorted a q h, alarm_insert_perm a q⟩

/-- C3 witness: a concrete sorted two-element queue and a middle insertion. -/
theorem C3_witness :
    List.Sorted alarm_le [(⟨0, 1, "x"⟩ : alarm_t), ⟨0, 3, "y"⟩] ∧
    (List.Sorted alarm_le (alarm_insert ⟨0, 2, "z"⟩ [⟨0, 1, "x"⟩, ⟨0, 3, "y"⟩]) ∧
      (alarm_insert ⟨0, 2, "z"⟩ [⟨0, 1, "x"⟩, ⟨0, 3, "y"⟩]).Perm
        (⟨0, 2, "z"⟩ :: [⟨0, 1, "x"⟩, ⟨0, 3, "y"⟩])) :=
  ⟨by decide,
   C3_insert_preserves_sorted_and_content ⟨0, 2, "z"⟩ [⟨0, 1, "x"⟩, ⟨0, 3, "y"⟩] (by decide)⟩

/-- C4: on a non-empty queue the consumer removes the head unconditionally
(no dueness test guards the removal at line 57), the removed entry is handed
to the consumer (it is the one fired at lines 80-84), and when the queue is
sorted that head has the earliest deadline of all entries present. -/
theorem C4_take_removes_head_unconditionally (a : alarm_t) (rest : List alarm_t)
    (now sleep0 sleet0 : Int) (h : List.Sorted alarm_le (a :: rest)) :
    (takeDueOrPeekWait (a :: rest) now sleep0).1 = some a ∧
    (takeDueOrPeekWait (a :: rest) now sleep0).2.1 = rest ∧
    (alarm_thread_iter (a :: rest) now sleep0 sleet0).fired = some a ∧
    ∀ b ∈ rest, alarm_le a b := by
  rw [List.sorted_cons] at h
  exact ⟨rfl, rfl, rfl, h.1⟩

/-- C4 witness: a sorted two-entry queue at a time when the head is not yet
due; the head is removed regardless. -/
theorem C4_witness :
    List.Sorted alarm_le [(⟨1, 9, "a"⟩ : alarm_t), ⟨2, 12, "b"⟩] ∧
    ((takeDueOrPeekWait [⟨1, 9, "a"⟩, ⟨2, 12, "b"⟩] 4 1).1 = some ⟨1, 9, "a"⟩ ∧
      (takeDueOrPeekWait [⟨1, 9, "a"⟩, ⟨2, 12, "b"⟩] 4 1).2.1 = [⟨2, 12, "b"⟩] ∧
      (alarm_thread_iter [⟨1, 9, "a"⟩, ⟨2, 12, "b"⟩] 4 1 0).fired = some ⟨1, 9, "a"⟩ ∧
      ∀ b ∈ [(⟨2, 12, "b"⟩ : alarm_t)], alarm_le ⟨1, 9, "a"⟩ b) :=
  ⟨by decide,
   C4_take_removes_head_unconditionally ⟨1, 9, "a"⟩ [⟨2, 12, "b"⟩] 4 1 0 (by decide)⟩

/-- C5: the claim states every lock and unlock in both threads is checked and
any error aborts.  Evaluating the embedded control flow: in the producer's
insert path a failing unlock (status 1, lock fine) does NOT abort — line 153
discards `pthread_mutex_unlock`'s return value — while the consumer's path
aborts on the same failure, as the claim requires of both. -/
theorem C5_producer_unlock_unchecked :
    producer_sync_aborts 0 1 = false ∧ consumer_sync_aborts 0 1 = true := by
  decide

/-- C6: the claim states an empty queue yields a suggested wait of 1 unit and
the consumer sleeps 1 unit.  Evaluating the embedded iteration on an empty
queue with a stale `sleep_time` of 0: line 54 assigns 1 to the stray variable
`sleet_time`, `sleep_time` stays 0, and the consumer yields instead of
sleeping one unit. -/
theorem C6_empty_queue_no_unit_sleep :
    (alarm_thread_iter [] 100 0 7).sleep_time = 0 ∧
    (alarm_thread_iter [] 100 0 7).sleet_time = 1 ∧
    (alarm_thread_iter [] 100 0 7).action = WaitAction.yieldSlice ∧
    (alarm_thread_iter [] 100 0 7).action ≠ WaitAction.sleepFor 1 := by
  decide

/-- C7: a non-blank line the `sscanf` rejects reports a parse error and leaves
the queue exactly as it was: no entry is inserted. -/
theorem C7_bad_line_leaves_queue_unmodified (q : List alarm_t) (now : Int)
    (line : String) (hlen : ¬ line.length ≤ 1) (hparse : parse_line line = none) :
    producer_step q now line = (q, SubmitResult.parseError) := by
  unfold producer_step
  rw [if_neg hlen, hparse]

/-- C7 witness: the unparseable line "abc" from spec Scenario C. -/
theorem C7_witness :
    ¬ ("abc\n".length ≤ 1) ∧ parse_line "abc\n" = none ∧
    producer_step [⟨0, 5, "q"⟩] 0 "abc\n" = ([⟨0, 5, "q"⟩], SubmitResult.parseError) :=
  ⟨by decide, by decide,
   C7_bad_line_leaves_queue_unmodified [⟨0, 5, "q"⟩] 0 "abc\n" (by decide) (by decide)⟩

/-- Characterization of `parse_line` when the `%d` conversion fails. -/
theorem parse_line_int_fail (line : String)
    (h : scan_int (line.toList.dropWhile is_space_c) = none) :
    parse_line line = none := by
  unfold parse_line
  rw [h]

/-- Characterization of `parse_line` when the `%d` conversion succeeds. -/
theorem parse_line_int_ok (line : String) (n : Int) (rest : List Char)
    (h : scan_int (line.toList.dropWhile is_space_c) = some (n, rest)) :
    parse_line line =
      if (scan_message (rest.dropWhile is_space_c)).isEmpty then none
      else some (n, String.mk (scan_message (rest.dropWhile is_space_c))) := by
  unfold parse_line
  rw [h]

/-- C8: whenever the `sscanf` succeeds, the stored message holds at most 64
units; it is exactly the first 64 units of the submitted message text (the
non-newline remainder of the line after the delay), so an oversize message is
truncated to exactly the maximum length and nothing past the bound enters the
stored entry. -/
theorem C8_message_truncated_to_max (line : String) (n : Int) (msg : String)
    (hp : parse_line line = some (n, msg)) :
    msg.length ≤ 64 ∧
    ∀ rest : List Char,
      scan_int (line.toList.dropWhile is_space_c) = some (n, rest) →
      msg.toList = ((rest.dropWhile is_space_c).takeWhile (fun c => c != '\n')).take 64 ∧
      (64 ≤ ((rest.dropWhile is_space_c).takeWhile (fun c => c != '\n')).length →
        msg.length = 64) := by
  cases hsi : scan_int (line.toList.dropWhile is_space_c) with
  | none =>
      rw [parse_line_int_fail line hsi] at hp
      exact Option.noConfusion hp
  | some p =>
      obtain ⟨m, r⟩ := p
      rw [parse_line_int_ok line m r hsi] at hp
      by_cases he : (scan_message (r.dropWhile is_space_c)).isEmpty = true
      · rw [if_pos he] at hp
        exact Option.noConfusion hp
      · rw [if_neg he] at hp
        injection hp with hp
        rw [Prod.mk.injEq] at hp
        obtain ⟨rfl, hmsg⟩ := hp
        constructor
        · rw [← hmsg]
          show (scan_message (r.dropWhile is_space_c)).length ≤ 64
          unfold scan_message
          rw [List.length_take]
          exact min_le_left _ _
        · intro rest hrest
          injection hrest with hrest
          rw [Prod.mk.injEq] at hrest
          obtain ⟨-, rfl⟩ := hrest
          constructor
          · rw [← hmsg]
            rfl
          · intro hlen
            rw [← hmsg]
            show (scan_message (r.dropWhile is_space_c)).length = 64
            unfold scan_message
            rw [List.length_take]
            exact min_eq_left hlen

/-- C8 witness: a 70-character message is stored as exactly its first 64
characters. -/
theorem C8_witness :
    parse_line "1 aaaaaaaaaaaaaaaaaaaaaaaaaaaaaaaaaaaaaaaaaaaaaaaaaaaaaaaaaaaaaaaaaaaaaa\n" =
      some (1, "aaaaaaaaaaaaaaaaaaaaaaaaaaaaaaaaaaaaaaaaaaaaaaaaaaaaaaaaaaaaaaaa") ∧
    ("aaaaaaaaaaaaaaaaaaaaaaaaaaaaaaaaaaaaaaaaaaaaaaaaaaaaaaaaaaaaaaaa" : String).length ≤ 64 ∧
    ("aaaaaaaaaaaaaaaaaaaaaaaaaaaaaaaaaaaaaaaaaaaaaaaaaaaaaaaaaaaaaaaa" : String).length = 64 := by
  have h := C8_message_truncated_to_max
    "1 aaaaaaaaaaaaaaaaaaaaaaaaaaaaaaaaaaaaaaaaaaaaaaaaaaaaaaaaaaaaaaaaaaaaaa\n" 1
    "aaaaaaaaaaaaaaaaaaaaaaaaaaaaaaaaaaaaaaaaaaaaaaaaaaaaaaaaaaaaaaaa" (by decide)
  exact ⟨by decide, h.1,
    (h.2 " aaaaaaaaaaaaaaaaaaaaaaaaaaaaaaaaaaaaaaaaaaaaaaaaaaaaaaaaaaaaaaaaaaaaaa\n".toList
      (by decide)).2 (by decide)⟩

/-- C9 counterexample: the whitespace-only line " " (a space then newline) has
`strlen 2 > 1`, so it is not skipped; the `sscanf` finds no digit and the
producer reports "bad command" — a parse error, not the claimed silent
no-op. -/
theorem C9_whitespace_line_reports_error :
    (" \n".toList.all is_space_c = true) ∧
    producer_step [] 0 " \n" = ([], SubmitResult.parseError) ∧
    (producer_step [] 0 " \n").2 ≠ SubmitResult.skipped := by
  decide

/-- C9 (amended): a whitespace-only line never mutates the queue and never
creates an entry, but only lines of `strlen <= 1` (empty, or a lone newline)
are silently skipped; a whitespace-only line longer than that falls through
to the parser and is reported as a parse error. -/
theorem C9_whitespace_line_handling (q : List alarm_t) (now : Int) (line : String)
    (hws : line.toList.all is_space_c = true) :
    producer_step q now line =
      (q, if line.length ≤ 1 then SubmitResult.skipped else SubmitResult.parseError) := by
  unfold producer_step
  by_cases hl : line.length ≤ 1
  · rw [if_pos hl, if_pos hl]
  · rw [if_neg hl, if_neg hl, parse_line_whitespace_none line hws]

/-- C9 witness: double-space-plus-newline line against a non-empty queue. -/
theorem C9_witness :
    ("  \n".toList.all is_space_c = true) ∧
    producer_step [⟨0, 5, "w"⟩] 3 "  \n" =
      ([⟨0, 5, "w"⟩],
        if "  \n".length ≤ 1 then SubmitResult.skipped else SubmitResult.parseError) :=
  ⟨by decide, C9_whitespace_line_handling [⟨0, 5, "w"⟩] 3 "  \n" (by decide)⟩

/-- C10: a line carrying a negative delay is accepted without validation: the
entry is inserted with deadline `now + delay < now`, and whenever the consumer
later dequeues it (at any time not earlier than submission) the `alarm->time
<= now` branch of line 59 applies and the computed wait is 0. -/
theorem C10_negative_delay_accepted_due_immediately (q : List alarm_t) (now : Int)
    (line : String) (secs : Int) (msg : String)
    (hlen : ¬ line.length ≤ 1) (hp : parse_line line = some (secs, msg))
    (hneg : secs < 0) :
    producer_step q now line =
      (alarm_insert { seconds := secs, time := now + secs, message := msg } q,
        SubmitResult.inserted) ∧
    now + secs < now ∧
    ∀ (now2 sleep0 : Int) (rest : List alarm_t), now ≤ now2 →
      (takeDueOrPeekWait
          ({ seconds := secs, time := now + secs, message := msg } :: rest)
          now2 sleep0).2.2 = 0 := by
  refine ⟨?_, by omega, ?_⟩
  · unfold producer_step
    rw [if_neg hlen, hp]
  · intro now2 sleep0 rest h2
    have hle : now + secs ≤ now2 := by omega
    show (if ({ seconds := secs, time := now + secs, message := msg } : alarm_t).time ≤ now2
        then (0 : Int)
        else now2 - ({ seconds := secs, time := now + secs, message := msg } : alarm_t).time) = 0
    rw [if_pos hle]

/-- C10 witness: the line "-3 hi" submitted at time 100 inserts an entry due
at 97 and the consumer's wait for it at time 100 is 0. -/
theorem C10_witness :
    ¬ ("-3 hi\n".length ≤ 1) ∧ parse_line "-3 hi\n" = some (-3, "hi") ∧ (-3 : Int) < 0 ∧
    producer_step [] 100 "-3 hi\n" =
      ([{ seconds := -3, time := 100 + -3, message := "hi" }], SubmitResult.inserted) ∧
    (100 : Int) + -3 < 100 ∧
    (takeDueOrPeekWait [{ seconds := -3, time := 100 + -3, message := "hi" }] 100 1).2.2 = 0 := by
  have h := C10_negative_delay_accepted_due_immediately [] 100 "-3 hi\n" (-3) "hi"
    (by decide) (by decide) (by decide)
  exact ⟨by decide, by decide, by decide, h.1, h.2.1, h.2.2 100 1 [] (by omega)⟩
